import Mathlib

/-!
Verification of `merger.py`: a tool that concatenates source files from a
directory tree into a single output file.

The Python source is shallowly embedded as follows:
- the filesystem is a finite rose tree (`FSTree`/`FSList`); directory entries
  carry a name; a file node carries the result of reading it (`Except.ok`
  content, or `Except.error message` when `open`/decode raises);
- paths are lists of name components; the path string rendered with `/`
  separators stands for the `os.path.join` result;
- Python string methods (`endswith`, `startswith`, sorting order) are modelled
  at the character-list level, since Python compares strings pointwise by code
  point;
- `fnmatch.fnmatch` (POSIX, case-sensitive) is modelled by `fnmatch` below,
  including `*`, `?` and `[...]` classes with `!` negation and ranges, and the
  CPython rule that an unterminated `[` is a literal;
- `print` calls are collected into a list of printed strings (one entry per
  call, in program order); writes to the output file accumulate into a string;
  `os.path.getsize` of the freshly written file is its UTF-8 byte size.
-/

/-! ## Character-level string primitives (Python `str` semantics) -/

/-- Python `s.endswith(suffix)`: exact suffix match on code points. -/
def strEndsWith (s suffix : String) : Bool := suffix.data.isSuffixOf s.data

/-- Python `s.startswith(pre)`: exact code-point match. -/
def strStartsWith (s pre : String) : Bool := pre.data.isPrefixOf s.data

/-- Python string comparison `a <= b`: lexicographic on code points. -/
def charListLe : List Char → List Char → Bool
  | [], _ => true
  | _ :: _, [] => false
  | a :: as, b :: bs =>
    if a.toNat < b.toNat then true
    else if b.toNat < a.toNat then false
    else charListLe as bs

def strLe (s t : String) : Bool := charListLe s.data t.data

/-- A path as the list of its name components. -/
def pathStr (p : List String) : String := String.intercalate "/" p

/-- The order in which Python `sorted()` arranges the joined path strings. -/
abbrev pathLe (a b : List String) : Prop := strLe (pathStr a) (pathStr b) = true

/-! ## `fnmatch.fnmatch` (glob matching against bare names) -/

/-- Scan a character class for its closing `]`; `none` if unterminated. -/
def scanClass : List Char → Option (List Char × List Char)
  | [] => none
  | ']' :: rest => some ([], rest)
  | c :: r =>
    match scanClass r with
    | some (body, rest) => some (c :: body, rest)
    | none => none

/-- Parse the contents after a `[`: optional `!` negation, a `]` right after
the opening (or after `!`) is a literal member, then everything up to the
closing `]`.  `none` means the `[` is unterminated and hence literal. -/
def parseClass : List Char → Option (Bool × List Char × List Char)
  | '!' :: ']' :: r =>
    (match scanClass r with
     | some (b, rest) => some (true, ']' :: b, rest)
     | none => none)
  | '!' :: r =>
    (match scanClass r with
     | some (b, rest) => some (true, b, rest)
     | none => none)
  | ']' :: r =>
    (match scanClass r with
     | some (b, rest) => some (false, ']' :: b, rest)
     | none => none)
  | r =>
    (match scanClass r with
     | some (b, rest) => some (false, b, rest)
     | none => none)

/-- Membership of a character in a class body: `x-y` ranges (inclusive, by
code point), other characters literally; a `-` without both endpoints is a
literal. -/
def classMember : List Char → Char → Bool
  | lo :: '-' :: hi :: rest, c =>
    if lo.toNat ≤ c.toNat ∧ c.toNat ≤ hi.toNat then true else classMember rest c
  | x :: rest, c => if x = c then true else classMember rest c
  | [], _ => false

/-- Glob matching with an explicit fuel parameter.  Every recursive call
strictly decreases `pattern.length + s.length`, so with fuel larger than that
sum the `0` case is never reached; the fuel only serves to make the function
structurally recursive. -/
def globFuel : Nat → List Char → List Char → Bool
  | 0, _, _ => false
  | _ + 1, [], s => s.isEmpty
  | fuel + 1, '*' :: ps, [] => globFuel fuel ps []
  | fuel + 1, '*' :: ps, c :: cs => globFuel fuel ps (c :: cs) || globFuel fuel ('*' :: ps) cs
  | fuel + 1, '?' :: ps, _ :: cs => globFuel fuel ps cs
  | _ + 1, '?' :: _, [] => false
  | fuel + 1, '[' :: ps, s =>
    (match parseClass ps, s with
     | some (neg, body, rest), c :: cs => (classMember body c != neg) && globFuel fuel rest cs
     | some _, [] => false
     | none, '[' :: cs => globFuel fuel ps cs
     | none, _ => false)
  | fuel + 1, p :: ps, c :: cs => p == c && globFuel fuel ps cs
  | _ + 1, _ :: _, [] => false

/-- Python `fnmatch.fnmatch(name, pat)` on a case-sensitive filesystem. -/
def fnmatch (name pat : String) : Bool :=
  globFuel (pat.data.length + name.data.length + 1) pat.data name.data

/-! ## The filesystem model -/

mutual
/-- A filesystem node: a file together with the outcome of reading it as
UTF-8 text (`Except.error` models any exception raised by `open`/`read`), or
a directory with a list of named children. -/
inductive FSTree : Type where
  | file : Except String String → FSTree
  | dir : FSList → FSTree
/-- Directory entries: an ordered association list of names to nodes, in the
order `os.walk` enumerates them. -/
inductive FSList : Type where
  | nil : FSList
  | cons : String → FSTree → FSList → FSList
end

def namesOf : FSList → List String
  | .nil => []
  | .cons n _ rest => n :: namesOf rest

def lookupList : FSList → String → Option FSTree
  | .nil, _ => none
  | .cons n t rest, name => if n = name then some t else lookupList rest name

/-- Resolve a path from a node, one component at a time. -/
def lookup (t : FSTree) : List String → Option FSTree
  | [] => some t
  | n :: rest =>
    match t with
    | .file _ => none
    | .dir cs =>
      match lookupList cs n with
      | some t2 => lookup t2 rest
      | none => none

/-- Python `os.path.isdir`. -/
def isDir (fs : FSTree) (p : List String) : Bool :=
  match lookup fs p with
  | some (.dir _) => true
  | _ => false

/-- Python `open(p, encoding='utf-8').read()`: the stored read outcome for a
file, an error for a missing path or a directory. -/
def readFile (fs : FSTree) (p : List String) : Except String String :=
  match lookup fs p with
  | some (.file r) => r
  | _ => Except.error "No such file or directory"

mutual
/-- Well-formedness of a filesystem: entry names inside each directory are
distinct (as on a real filesystem). -/
def wfTree : FSTree → Bool
  | .file _ => true
  | .dir cs => decide (namesOf cs).Nodup && wfList cs
def wfList : FSList → Bool
  | .nil => true
  | .cons _ t rest => wfTree t && wfList rest
end

/-! ## The path resolver (`merge_contracts` lines 17-44) -/

/-- `extensions = [ext if ext.startswith('.') else f'.{ext}' for ext in extensions]` -/
def normalizeExts (exts : List String) : List String :=
  exts.map (fun e => if strStartsWith e "." then e else "." ++ e)

/-- `any(file.endswith(ext) for ext in extensions)` -/
def extMatches (exts : List String) (name : String) : Bool :=
  exts.any (fun e => strEndsWith name e)

/-- `any(fnmatch.fnmatch(d, pattern) for pattern in exclude_patterns)` -/
def isExcluded (excl : List String) (d : String) : Bool :=
  excl.any (fun pat => fnmatch d pat)

/-- The files of one directory level that pass the extension filter, as
absolute paths (`os.path.join(root, file)`). -/
def walkFiles (exts : List String) (pref : List String) : FSList → List (List String)
  | .nil => []
  | .cons n (.file _) rest =>
    (if extMatches exts n then [pref ++ [n]] else []) ++ walkFiles exts pref rest
  | .cons _ (.dir _) rest => walkFiles exts pref rest

mutual
/-- `os.walk(path)` with in-place pruning of excluded directory names,
collecting the extension-matched files top-down: the files of the current
directory first, then each non-pruned subdirectory recursively. -/
def walkTree (exts excl : List String) (pref : List String) : FSTree → List (List String)
  | .file _ => []
  | .dir cs => walkFiles exts pref cs ++ walkDirs exts excl pref cs
def walkDirs (exts excl : List String) (pref : List String) : FSList → List (List String)
  | .nil => []
  | .cons _ (.file _) rest => walkDirs exts excl pref rest
  | .cons n (.dir cs) rest =>
    (if isExcluded excl n then [] else walkTree exts excl (pref ++ [n]) (.dir cs))
      ++ walkDirs exts excl pref rest
end

/-- `search_paths = [os.path.join(src_dir, p) for p in include_patterns] if
include_patterns else [src_dir]` (Python truthiness: `None` and `[]` both fall
back to the source directory).  Include entries are modelled as component
lists. -/
def searchPaths (src_dir : List String) (include_patterns : Option (List (List String))) :
    List (List String) :=
  match include_patterns with
  | some ps => if ps.isEmpty then [src_dir] else ps.map (fun p => src_dir ++ p)
  | none => [src_dir]

def rootWarning (root : List String) : String :=
  "Warning: Path not found or not a directory, skipping: " ++ pathStr root

/-- The traversal loop over all search paths: a root that is not an existing
directory produces a warning and is skipped, the others are walked.  Returns
the discovered matched paths (in traversal order) and the printed warnings
(in root order). -/
def resolveRoots (fs : FSTree) (exts excl : List String) :
    List (List String) → List (List String) × List String
  | [] => ([], [])
  | r :: rest =>
    let rr := resolveRoots fs exts excl rest
    match lookup fs r with
    | some (FSTree.dir cs) => (walkTree exts excl r (FSTree.dir cs) ++ rr.1, rr.2)
    | _ => (rr.1, rootWarning r :: rr.2)

/-- `matched_files = sorted(list(matched_files_set))`: the discovered paths,
de-duplicated (the Python `set`) and sorted by their joined path strings.
`List.dedup` realizes one possible set iteration order; since the result is
sorted afterwards, the outcome does not depend on that order. -/
def matchedFilesOf (fs : FSTree) (src_dir : List String) (exts excl : List String)
    (incl : Option (List (List String))) : List (List String) :=
  List.insertionSort pathLe ((resolveRoots fs exts excl (searchPaths src_dir incl)).1).dedup

def rootWarningsOf (fs : FSTree) (src_dir : List String) (exts excl : List String)
    (incl : Option (List (List String))) : List String :=
  (resolveRoots fs exts excl (searchPaths src_dir incl)).2

/-! ## Sanity checks of the primitives on concrete inputs -/

example : fnmatch "FooTest" "*Test" = true := by decide
example : fnmatch "FooTest2" "*Test" = false := by decide
example : fnmatch "adc" "a[!b]c" = true := by decide
example : fnmatch "a[bc" "a[bc" = true := by decide
example : normalizeExts ["sol", ".txt"] = [".sol", ".txt"] := by decide
example : extMatches [".sol"] "a.sol" = true := by decide
example : extMatches [".sol"] "a.txt" = false := by decide

/-! ## The merger/writer (`merge_contracts` lines 50-73) -/

/-- `'='*80` -/
def eqLine : String := String.mk (List.replicate 80 '=')

/-- The two header lines written before the first file. -/
def headerStr (src_dir : List String) (exts : List String) : String :=
  "// Merged source files from " ++ pathStr src_dir ++ "\n"
    ++ "// Extensions: " ++ String.intercalate ", " exts ++ "\n"

/-- `os.path.relpath(p, start)` for already-normalized component paths:
drop the common prefix and climb with `..` for what remains of `start`. -/
def commonPrefixLen : List String → List String → Nat
  | a :: as, b :: bs => if a = b then commonPrefixLen as bs + 1 else 0
  | _, _ => 0

def relpathStr (p start : List String) : String :=
  let k := commonPrefixLen p start
  let parts := List.replicate (start.length - k) ".." ++ p.drop k
  if parts.isEmpty then "." else String.intercalate "/" parts

def warnLine (rel e : String) : String :=
  "Warning: Could not read " ++ rel ++ ": " ++ e

/-- One iteration of the write loop: on a successful read, the four
`outfile.write` calls append the banner, a blank line, the content and a
final newline; on a failed read nothing is appended and a warning is
printed. -/
def writeStep (fs : FSTree) (src_dir : List String) (st : String × List String)
    (p : List String) : String × List String :=
  match readFile fs p with
  | .ok content =>
    (st.1 ++ ("\n// " ++ eqLine ++ "\n") ++ ("// Source: " ++ relpathStr p src_dir ++ "\n")
      ++ ("// " ++ eqLine ++ "\n\n") ++ content ++ "\n", st.2)
  | .error e => (st.1, st.2 ++ [warnLine (relpathStr p src_dir) e])

/-- The whole write phase: header first, then the loop over the matched
files.  Returns the final file content and the printed warnings. -/
def writeAll (fs : FSTree) (src_dir : List String) (hdr : String)
    (matched : List (List String)) : String × List String :=
  matched.foldl (writeStep fs src_dir) (hdr, [])

/-- What one file contributes to the output: its banner-plus-content block on
a successful read, nothing on a failed one. -/
def fileChunk (fs : FSTree) (src_dir : List String) (p : List String) : String :=
  match readFile fs p with
  | .ok content =>
    ("\n// " ++ eqLine ++ "\n") ++ ("// Source: " ++ relpathStr p src_dir ++ "\n")
      ++ ("// " ++ eqLine ++ "\n\n") ++ content ++ "\n"
  | .error _ => ""

/-- The warning one file contributes, if its read fails. -/
def readWarning (fs : FSTree) (src_dir : List String) (p : List String) : Option String :=
  match readFile fs p with
  | .ok _ => none
  | .error e => some (warnLine (relpathStr p src_dir) e)

/-! ## The reporter (`merge_contracts` lines 75-83) -/

/-- Python `{n:,}` thousands grouping (on the reversed digit list). -/
def commaGroup : List Char → List Char
  | d1 :: d2 :: d3 :: d4 :: rest => d1 :: d2 :: d3 :: ',' :: commaGroup (d4 :: rest)
  | l => l

def commaFmt (n : Nat) : String :=
  String.mk (commaGroup (toString n).data.reverse).reverse

/-- The exact value `100 * n / 1048576 = 25 * n / 262144` rounded to the
nearest integer, ties to even: the number of hundredths of a megabyte that
`f"{n/1024/1024:.2f}"` prints (`n/2^20` is exact in binary for any realistic
file size, and float formatting rounds half to even). -/
def mbHundredths (n : Nat) : Nat :=
  if 25 * n % 262144 < 131072 then 25 * n / 262144
  else if 25 * n % 262144 > 131072 then 25 * n / 262144 + 1
  else if (25 * n / 262144) % 2 = 0 then 25 * n / 262144
  else 25 * n / 262144 + 1

def fmt2MB (n : Nat) : String :=
  toString (mbHundredths n / 100) ++ "."
    ++ (if mbHundredths n % 100 < 10 then "0" else "") ++ toString (mbHundredths n % 100)

def successLine (n : Nat) (output_file : String) : String :=
  "✓ Merged " ++ toString n ++ " files into " ++ output_file

def sizeLine (size : Nat) : String :=
  "  Total size: " ++ commaFmt size ++ " bytes (" ++ fmt2MB size ++ " MB)"

def itemLine (src_dir p : List String) : String := "  - " ++ relpathStr p src_dir

def moreLine (k : Nat) : String := "  ... and " ++ toString k ++ " more files"

/-- The summary printed after a successful write. -/
def summaryLines (src_dir : List String) (output_file : String)
    (matched : List (List String)) (size : Nat) : List String :=
  [successLine matched.length output_file, sizeLine size, "\nMerged files:"]
    ++ (matched.take 10).map (itemLine src_dir)
    ++ (if matched.length > 10 then [moreLine (matched.length - 10)] else [])

/-- Python `repr` of a list of strings, as `print(f"... {extensions} ...")`
renders it. -/
def pyListRepr (xs : List String) : String :=
  "[" ++ String.intercalate ", " (xs.map (fun s => "\x27" ++ s ++ "\x27")) ++ "]"

def noFilesLine (exts : List String) : String :=
  "No files with extensions " ++ pyListRepr exts ++ " found in the specified paths."

/-! ## `merge_contracts` and `main` -/

def defaultExtensions : List String := [".sol"]

def defaultExcludePatterns : List String :=
  ["node_modules", ".git", "build", "cache", "out", "artifacts"]

/-- The observable outcome of `merge_contracts`: the output file content (if
one was written) and everything printed, in order. -/
structure MergeResult where
  written : Option String
  printed : List String
deriving DecidableEq

def merge_contracts (fs : FSTree) (src_dir : List String) (output_file : String)
    (extensions : Option (List String)) (exclude_patterns : Option (List String))
    (include_patterns : Option (List (List String))) : MergeResult :=
  let exts := normalizeExts (extensions.getD defaultExtensions)
  let excl := exclude_patterns.getD defaultExcludePatterns
  let matched := matchedFilesOf fs src_dir exts excl include_patterns
  let warns := rootWarningsOf fs src_dir exts excl include_patterns
  if matched.isEmpty then
    { written := none, printed := warns ++ [noFilesLine exts] }
  else
    let res := writeAll fs src_dir (headerStr src_dir exts) matched
    { written := some res.1,
      printed := warns ++ res.2
        ++ summaryLines src_dir output_file matched res.1.utf8ByteSize }

def errorLine (src_dir : List String) : String :=
  "Error: Source directory not found: " ++ pathStr src_dir

/-- `extensions = args.extensions if args.extensions else ['sol']` -/
def cliExtensions (extArgs : Option (List String)) : List String :=
  match extArgs with
  | some e => if e.isEmpty then ["sol"] else e
  | none => ["sol"]

/-- Built-in excludes, extended (never replaced) by the user's `--exclude`. -/
def cliExcludes (excludeArgs : Option (List String)) : List String :=
  defaultExcludePatterns ++ excludeArgs.getD []

/-- The observable outcome of one CLI invocation. -/
structure MainResult where
  exitCode : Nat
  stdoutLines : List String
  stderrLines : List String
  written : Option String
deriving DecidableEq

/-- `main()`: validate the source directory, apply CLI defaults, run the
merge.  All of the program's messages go through `print`, i.e. stdout.
(Named `mainCli` because Lean reserves `main` for executable entry points.) -/
def mainCli (fs : FSTree) (src_dir : List String) (output_file : String)
    (extArgs : Option (List String)) (excludeArgs : Option (List String))
    (includeArgs : Option (List (List String))) : MainResult :=
  if isDir fs src_dir then
    let r := merge_contracts fs src_dir output_file (some (cliExtensions extArgs))
      (some (cliExcludes excludeArgs)) includeArgs
    { exitCode := 0, stdoutLines := r.printed, stderrLines := [], written := r.written }
  else
    { exitCode := 1, stdoutLines := [errorLine src_dir], stderrLines := [], written := none }

/-! ## A concrete demonstration tree (spec Scenario A plus an unreadable file) -/

def fsA : FSTree :=
  .dir (.cons "src"
    (.dir (.cons "a.sol" (.file (.ok "contract A"))
      (.cons "node_modules" (.dir (.cons "c.sol" (.file (.ok "contract C")) .nil))
        (.cons "sub" (.dir (.cons "b.sol" (.file (.ok "contract B")) .nil))
          .nil))))
    .nil)

example : wfTree fsA = true := by decide

example : matchedFilesOf fsA ["src"] (normalizeExts ["sol"]) defaultExcludePatterns none
    = [["src", "a.sol"], ["src", "sub", "b.sol"]] := by decide

set_option maxRecDepth 10000 in
example :
    (merge_contracts fsA ["src"] "merged.sol" (some ["sol"]) none none).written =
      some ("// Merged source files from src\n// Extensions: .sol\n"
        ++ "\n// " ++ eqLine ++ "\n// Source: a.sol\n// " ++ eqLine ++ "\n\ncontract A\n"
        ++ "\n// " ++ eqLine ++ "\n// Source: sub/b.sol\n// " ++ eqLine ++ "\n\ncontract B\n") := by
  decide

/-- Concatenation of a list of strings (`String.join`, in a shape convenient
for induction). -/
def concatStrs : List String → String
  | [] => ""
  | s :: rest => s ++ concatStrs rest

/-- The per-file block as the specification describes it: a three-line
banner, a blank line, the content, one appended newline — with nothing before
the banner. -/
def claimedBlock (rel content : String) : String :=
  ("// " ++ eqLine ++ "\n") ++ ("// Source: " ++ rel ++ "\n") ++ ("// " ++ eqLine ++ "\n\n")
    ++ content ++ "\n"

/-- The per-file block the code actually writes: the same, preceded by one
extra newline, i.e. a blank line before every banner. -/
def actualBlock (rel content : String) : String := "\n" ++ claimedBlock rel content

/-- The whole output as claim C4 words it: the two header lines followed
immediately by the blocks of the successfully read files. -/
def claimedOutput (fs : FSTree) (src_dir : List String) (exts : List String)
    (matched : List (List String)) : String :=
  headerStr src_dir exts ++ concatStrs (matched.filterMap (fun p =>
    ((readFile fs p).toOption).map (fun c => claimedBlock (relpathStr p src_dir) c)))

/-- The output layout the code produces (the amended C4): as `claimedOutput`,
but each block carries its leading blank line. -/
def actualOutput (fs : FSTree) (src_dir : List String) (exts : List String)
    (matched : List (List String)) : String :=
  headerStr src_dir exts ++ concatStrs (matched.filterMap (fun p =>
    ((readFile fs p).toOption).map (fun c => actualBlock (relpathStr p src_dir) c)))

/-- How many of the matched files are actually merged (read successfully). -/
def mergedOkCount (fs : FSTree) (matched : List (List String)) : Nat :=
  (matched.filter (fun p =>
    match readFile fs p with
    | .ok _ => true
    | .error _ => false)).length

/-! ## Further concrete trees used for witnesses and counterexamples -/

/-- One readable and one unreadable matched file. -/
def fsB : FSTree :=
  .dir (.cons "src"
    (.dir (.cons "a.sol" (.file (.ok "contract A"))
      (.cons "bad.sol" (.file (.error "Permission denied")) .nil)))
    .nil)

/-- An include root whose own name matches an exclusion pattern. -/
def fsC2 : FSTree :=
  .dir (.cons "src"
    (.dir (.cons "skip" (.dir (.cons "a.sol" (.file (.ok "contract A")) .nil)) .nil))
    .nil)

/-- A source directory with no matching files. -/
def fsE : FSTree := .dir (.cons "src" (.dir .nil) .nil)

/-- A filesystem without the requested source directory. -/
def fsEmptyRoot : FSTree := .dir .nil

/-! ## The sort order is total and transitive -/

theorem charListLe_total : ∀ as bs, charListLe as bs = true ∨ charListLe bs as = true := by
  intro as
  induction as with
  | nil => intro bs; left; rfl
  | cons a as ih =>
    intro bs
    cases bs with
    | nil => right; rfl
    | cons b bs =>
      simp only [charListLe]
      rcases Nat.lt_trichotomy a.toNat b.toNat with h | h | h
      · left; simp [h]
      · rcases ih bs with h2 | h2 <;> simp [h, h2]
      · right; simp [h, Nat.lt_asymm h]

theorem charListLe_trans : ∀ as bs cs, charListLe as bs = true → charListLe bs cs = true →
    charListLe as cs = true := by
  intro as
  induction as with
  | nil => intro bs cs _ _; rfl
  | cons a as ih =>
    intro bs cs h1 h2
    cases bs with
    | nil => simp [charListLe] at h1
    | cons b bs =>
      cases cs with
      | nil => simp [charListLe] at h2
      | cons c cs =>
        simp only [charListLe] at h1 h2 ⊢
        by_cases hac : a.toNat < c.toNat
        · simp [hac]
        · by_cases hca : c.toNat < a.toNat
          · exfalso
            by_cases hab : a.toNat < b.toNat <;> by_cases hba : b.toNat < a.toNat <;>
              by_cases hbc : b.toNat < c.toNat <;> by_cases hcb : c.toNat < b.toNat <;>
              simp_all <;> omega
          · simp only [if_neg hac, if_neg hca]
            by_cases hab : a.toNat < b.toNat <;> by_cases hba : b.toNat < a.toNat <;>
              by_cases hbc : b.toNat < c.toNat <;> by_cases hcb : c.toNat < b.toNat <;>
              simp_all <;> first
                | exact ih bs cs h1 h2
                | omega

instance : IsTotal (List String) pathLe :=
  ⟨fun a b => charListLe_total (pathStr a).data (pathStr b).data⟩

instance : IsTrans (List String) pathLe :=
  ⟨fun a b c => charListLe_trans (pathStr a).data (pathStr b).data (pathStr c).data⟩

/-! ## Characterizing the write loop -/

theorem writeAll_eq (fs : FSTree) (src_dir : List String) :
    ∀ (l : List (List String)) (acc : String × List String),
      List.foldl (writeStep fs src_dir) acc l =
        (acc.1 ++ concatStrs (l.map (fileChunk fs src_dir)),
         acc.2 ++ l.filterMap (readWarning fs src_dir)) := by
  intro l
  induction l with
  | nil => intro acc; simp [concatStrs, String.append_empty]
  | cons p rest ih =>
    intro acc
    simp only [List.foldl_cons, List.map_cons, List.filterMap_cons, concatStrs]
    rw [ih]
    cases h : readFile fs p with
    | ok c =>
      simp [writeStep, fileChunk, readWarning, h, String.append_assoc]
    | error e =>
      simp [writeStep, fileChunk, readWarning, h, String.empty_append]

theorem writeAll_fst (fs : FSTree) (src_dir : List String) (hdr : String)
    (matched : List (List String)) :
    (writeAll fs src_dir hdr matched).1 = hdr ++ concatStrs (matched.map (fileChunk fs src_dir)) := by
  unfold writeAll; rw [writeAll_eq]

theorem writeAll_snd (fs : FSTree) (src_dir : List String) (hdr : String)
    (matched : List (List String)) :
    (writeAll fs src_dir hdr matched).2 = matched.filterMap (readWarning fs src_dir) := by
  unfold writeAll; rw [writeAll_eq]; simp

/-! ## Lookup lemmas -/

theorem lookupList_mem_names : ∀ (cs : FSList) (name : String) (t : FSTree),
    lookupList cs name = some t → name ∈ namesOf cs
  | .nil, name, t, h => by simp [lookupList] at h
  | .cons n t0 rest, name, t, h => by
    simp only [lookupList] at h
    by_cases hn : n = name
    · simp [namesOf, hn]
    · simp only [if_neg hn] at h
      simp only [namesOf, List.mem_cons]
      exact Or.inr (lookupList_mem_names rest name t h)

theorem lookupList_cons_of_mem_tail (n0 : String) (t0 : FSTree) (rest : FSList)
    (n : String) (t : FSTree) (hnd : n0 ∉ namesOf rest) (h : lookupList rest n = some t) :
    lookupList (.cons n0 t0 rest) n = some t := by
  have hne : n0 ≠ n := fun he => hnd (he ▸ lookupList_mem_names rest n t h)
  simp [lookupList, hne, h]

theorem wfTree_dir (cs : FSList) (h : wfTree (.dir cs) = true) :
    (namesOf cs).Nodup ∧ wfList cs = true := by
  simp only [wfTree, Bool.and_eq_true, decide_eq_true_eq] at h
  exact h

theorem wfList_cons (n : String) (t : FSTree) (rest : FSList)
    (h : wfList (.cons n t rest) = true) : wfTree t = true ∧ wfList rest = true := by
  simp only [wfList, Bool.and_eq_true] at h
  exact h

theorem wfList_lookupList : ∀ (cs : FSList) (name : String) (t : FSTree),
    wfList cs = true → lookupList cs name = some t → wfTree t = true
  | .nil, name, t, _, h2 => by simp [lookupList] at h2
  | .cons n t0 rest, name, t, h1, h2 => by
    obtain ⟨hw, hrest⟩ := wfList_cons n t0 rest h1
    simp only [lookupList] at h2
    by_cases hn : n = name
    · simp only [if_pos hn, Option.some.injEq] at h2
      exact h2 ▸ hw
    · exact wfList_lookupList rest name t hrest (by simpa [hn] using h2)

theorem wfTree_lookup : ∀ (path : List String) (t t2 : FSTree),
    wfTree t = true → lookup t path = some t2 → wfTree t2 = true
  | [], t, t2, h1, h2 => by
    simp only [lookup, Option.some.injEq] at h2
    exact h2 ▸ h1
  | n :: rest, t, t2, h1, h2 => by
    cases t with
    | file r => simp [lookup] at h2
    | dir cs =>
      simp only [lookup] at h2
      cases hl : lookupList cs n with
      | none => rw [hl] at h2; simp at h2
      | some t3 =>
        rw [hl] at h2
        exact wfTree_lookup rest t3 t2 (wfList_lookupList cs n t3 (wfTree_dir cs h1).2 hl) h2

theorem lookup_append : ∀ (a b : List String) (t : FSTree),
    lookup t (a ++ b) = (lookup t a).bind (fun t2 => lookup t2 b)
  | [], b, t => by simp [lookup]
  | n :: rest, b, t => by
    cases t with
    | file r => simp [lookup]
    | dir cs =>
      simp only [List.cons_append, lookup]
      cases lookupList cs n with
      | none => simp
      | some t2 => simp [lookup_append rest b t2]

/-! ## Soundness of the traversal -/

theorem walkFiles_sound : ∀ (exts pref : List String) (cs : FSList) (p : List String),
    (namesOf cs).Nodup → p ∈ walkFiles exts pref cs →
    ∃ n r, p = pref ++ [n] ∧ extMatches exts n = true ∧ lookupList cs n = some (FSTree.file r)
  | exts, pref, .nil, p, _, hp => by simp [walkFiles] at hp
  | exts, pref, .cons n0 (.file r0) rest, p, hnd, hp => by
    simp only [namesOf, List.nodup_cons] at hnd
    simp only [walkFiles, List.mem_append] at hp
    rcases hp with hp | hp
    · by_cases hm : extMatches exts n0 <;> simp [hm] at hp
      exact ⟨n0, r0, hp, hm, by simp [lookupList]⟩
    · obtain ⟨n, r, hpe, hm, hl⟩ := walkFiles_sound exts pref rest p hnd.2 hp
      exact ⟨n, r, hpe, hm, lookupList_cons_of_mem_tail n0 (.file r0) rest n _ hnd.1 hl⟩
  | exts, pref, .cons n0 (.dir cs0) rest, p, hnd, hp => by
    simp only [namesOf, List.nodup_cons] at hnd
    simp only [walkFiles] at hp
    obtain ⟨n, r, hpe, hm, hl⟩ := walkFiles_sound exts pref rest p hnd.2 hp
    exact ⟨n, r, hpe, hm, lookupList_cons_of_mem_tail n0 (.dir cs0) rest n _ hnd.1 hl⟩

mutual
theorem walkTree_sound : ∀ (exts excl pref : List String) (t : FSTree),
    wfTree t = true → ∀ p ∈ walkTree exts excl pref t,
      ∃ suffix, suffix ≠ [] ∧ p = pref ++ suffix ∧
        (∃ r, lookup t suffix = some (FSTree.file r)) ∧
        (∃ fname, suffix.getLast? = some fname ∧ extMatches exts fname = true) ∧
        (∀ d ∈ suffix.dropLast, isExcluded excl d = false)
  | exts, excl, pref, .file r, _, p, hp => by simp [walkTree] at hp
  | exts, excl, pref, .dir cs, hwf, p, hp => by
    obtain ⟨hnd, hwl⟩ := wfTree_dir cs hwf
    simp only [walkTree, List.mem_append] at hp
    rcases hp with hp | hp
    · obtain ⟨n, r, hpe, hm, hl⟩ := walkFiles_sound exts pref cs p hnd hp
      exact ⟨[n], by simp, hpe, ⟨r, by simp [lookup, hl]⟩, ⟨n, by simp, hm⟩, by simp⟩
    · obtain ⟨n, t2, suffix2, hl, hexc, hne, hpe, ⟨r, hlk⟩, ⟨fname, hgl, hm⟩, hdl⟩ :=
        walkDirs_sound exts excl pref cs hnd hwl p hp
      refine ⟨n :: suffix2, by simp, hpe, ⟨r, ?_⟩, ⟨fname, ?_, hm⟩, ?_⟩
      · simp [lookup, hl, hlk]
      · cases suffix2 with
        | nil => exact absurd rfl hne
        | cons b l => simpa [List.getLast?_cons_cons] using hgl
      · intro d hd
        cases suffix2 with
        | nil => exact absurd rfl hne
        | cons b l =>
          rw [List.dropLast_cons₂] at hd
          rcases List.mem_cons.mp hd with hd | hd
          · exact hd ▸ hexc
          · exact hdl d hd

theorem walkDirs_sound : ∀ (exts excl pref : List String) (cs : FSList),
    (namesOf cs).Nodup → wfList cs = true → ∀ p ∈ walkDirs exts excl pref cs,
      ∃ n t2 suffix2, lookupList cs n = some t2 ∧ isExcluded excl n = false ∧
        suffix2 ≠ [] ∧ p = pref ++ n :: suffix2 ∧
        (∃ r, lookup t2 suffix2 = some (FSTree.file r)) ∧
        (∃ fname, suffix2.getLast? = some fname ∧ extMatches exts fname = true) ∧
        (∀ d ∈ suffix2.dropLast, isExcluded excl d = false)
  | exts, excl, pref, .nil, _, _, p, hp => by simp [walkDirs] at hp
  | exts, excl, pref, .cons n0 (.file r0) rest, hnd, hwl, p, hp => by
    simp only [namesOf, List.nodup_cons] at hnd
    simp only [walkDirs] at hp
    obtain ⟨n, t2, suffix2, hl, rest_props⟩ :=
      walkDirs_sound exts excl pref rest hnd.2 (wfList_cons n0 (.file r0) rest hwl).2 p hp
    exact ⟨n, t2, suffix2,
      lookupList_cons_of_mem_tail n0 (.file r0) rest n t2 hnd.1 hl, rest_props⟩
  | exts, excl, pref, .cons n0 (.dir cs0) rest, hnd, hwl, p, hp => by
    simp only [namesOf, List.nodup_cons] at hnd
    obtain ⟨hw0, hwrest⟩ := wfList_cons n0 (.dir cs0) rest hwl
    simp only [walkDirs, List.mem_append] at hp
    rcases hp with hp | hp
    · by_cases hexc : isExcluded excl n0 <;> simp only [hexc] at hp
      · simp at hp
      · simp only [if_neg Bool.false_ne_true, Bool.false_eq_true] at hp
        obtain ⟨suffix, hne, hpe, hlk, hgl, hdl⟩ :=
          walkTree_sound exts excl (pref ++ [n0]) (.dir cs0) hw0 p (by simpa using hp)
        refine ⟨n0, .dir cs0, suffix, by simp [lookupList], by simpa using hexc,
          hne, ?_, hlk, hgl, hdl⟩
        rw [hpe, List.append_assoc, List.singleton_append]
    · obtain ⟨n, t2, suffix2, hl, rest_props⟩ :=
        walkDirs_sound exts excl pref rest hnd.2 hwrest p hp
      exact ⟨n, t2, suffix2,
        lookupList_cons_of_mem_tail n0 (.dir cs0) rest n t2 hnd.1 hl, rest_props⟩
end

/-! ## Membership in the resolver result -/

theorem mem_resolveRoots (fs : FSTree) (exts excl : List String) :
    ∀ (roots : List (List String)) (p : List String),
      p ∈ (resolveRoots fs exts excl roots).1 ↔
        ∃ r ∈ roots, ∃ cs, lookup fs r = some (FSTree.dir cs) ∧
          p ∈ walkTree exts excl r (FSTree.dir cs)
  | [], p => by simp [resolveRoots]
  | r :: rest, p => by
    simp only [resolveRoots]
    cases hl : lookup fs r with
    | none =>
      rw [mem_resolveRoots fs exts excl rest p]
      constructor
      · rintro ⟨r1, hr1, cs, hcs, hw⟩
        exact ⟨r1, List.mem_cons_of_mem _ hr1, cs, hcs, hw⟩
      · rintro ⟨r1, hr1, cs, hcs, hw⟩
        rcases List.mem_cons.mp hr1 with he | hm
        · subst he; rw [hl] at hcs; simp at hcs
        · exact ⟨r1, hm, cs, hcs, hw⟩
    | some t =>
      cases t with
      | file fr =>
        rw [mem_resolveRoots fs exts excl rest p]
        constructor
        · rintro ⟨r1, hr1, cs, hcs, hw⟩
          exact ⟨r1, List.mem_cons_of_mem _ hr1, cs, hcs, hw⟩
        · rintro ⟨r1, hr1, cs, hcs, hw⟩
          rcases List.mem_cons.mp hr1 with he | hm
          · subst he; rw [hl] at hcs; simp at hcs
          · exact ⟨r1, hm, cs, hcs, hw⟩
      | dir cs0 =>
        simp only [List.mem_append]
        rw [mem_resolveRoots fs exts excl rest p]
        constructor
        · rintro (hw | ⟨r1, hr1, cs, hcs, hw⟩)
          · exact ⟨r, List.mem_cons_self r rest, cs0, hl, hw⟩
          · exact ⟨r1, List.mem_cons_of_mem _ hr1, cs, hcs, hw⟩
        · rintro ⟨r1, hr1, cs, hcs, hw⟩
          rcases List.mem_cons.mp hr1 with he | hm
          · subst he
            rw [hl] at hcs
            simp only [Option.some.injEq, FSTree.dir.injEq] at hcs
            subst hcs
            exact Or.inl hw
          · exact Or.inr ⟨r1, hm, cs, hcs, hw⟩

theorem mem_matchedFilesOf (fs : FSTree) (src_dir : List String) (exts excl : List String)
    (incl : Option (List (List String))) (p : List String) :
    p ∈ matchedFilesOf fs src_dir exts excl incl ↔
      p ∈ (resolveRoots fs exts excl (searchPaths src_dir incl)).1 := by
  unfold matchedFilesOf
  rw [(List.perm_insertionSort pathLe _).mem_iff, List.mem_dedup]


/-! ## The shape of the written output -/

theorem exceptToOption_ok (c : String) :
    (Except.ok c : Except String String).toOption = some c := rfl

theorem exceptToOption_error (e : String) :
    (Except.error e : Except String String).toOption = none := rfl

theorem fileChunk_ok (fs : FSTree) (src_dir : List String) (p : List String) (c : String)
    (h : readFile fs p = .ok c) :
    fileChunk fs src_dir p = actualBlock (relpathStr p src_dir) c := by
  unfold fileChunk actualBlock claimedBlock
  rw [h]
  have hsplit : ("\n// " : String) = "\n" ++ "// " := by decide
  simp only [String.append_assoc]
  rw [hsplit, String.append_assoc]

theorem fileChunk_error (fs : FSTree) (src_dir : List String) (p : List String) (e : String)
    (h : readFile fs p = .error e) : fileChunk fs src_dir p = "" := by
  unfold fileChunk
  rw [h]

theorem concat_chunks_eq (fs : FSTree) (src_dir : List String) :
    ∀ matched : List (List String),
      concatStrs (matched.map (fileChunk fs src_dir)) =
        concatStrs (matched.filterMap (fun p =>
          ((readFile fs p).toOption).map (fun c => actualBlock (relpathStr p src_dir) c)))
  | [] => rfl
  | p :: rest => by
    simp only [List.map_cons, List.filterMap_cons]
    cases h : readFile fs p with
    | ok c =>
      simp only [h, exceptToOption_ok, Option.map_some']
      simp only [concatStrs]
      rw [fileChunk_ok fs src_dir p c h, concat_chunks_eq fs src_dir rest]
    | error e =>
      simp only [h, exceptToOption_error, Option.map_none']
      simp only [concatStrs]
      rw [fileChunk_error fs src_dir p e h, concat_chunks_eq fs src_dir rest,
        String.empty_append]

/-! ## The observable behavior of a successful merge -/

theorem merge_contracts_success (fs : FSTree) (src_dir : List String) (output_file : String)
    (extensions exclude_patterns : Option (List String))
    (include_patterns : Option (List (List String)))
    (h : matchedFilesOf fs src_dir (normalizeExts (extensions.getD defaultExtensions))
      (exclude_patterns.getD defaultExcludePatterns) include_patterns ≠ []) :
    (merge_contracts fs src_dir output_file extensions exclude_patterns include_patterns).written
      = some ((writeAll fs src_dir
          (headerStr src_dir (normalizeExts (extensions.getD defaultExtensions)))
          (matchedFilesOf fs src_dir (normalizeExts (extensions.getD defaultExtensions))
            (exclude_patterns.getD defaultExcludePatterns) include_patterns)).1) ∧
    (merge_contracts fs src_dir output_file extensions exclude_patterns include_patterns).printed
      = rootWarningsOf fs src_dir (normalizeExts (extensions.getD defaultExtensions))
          (exclude_patterns.getD defaultExcludePatterns) include_patterns
        ++ (matchedFilesOf fs src_dir (normalizeExts (extensions.getD defaultExtensions))
            (exclude_patterns.getD defaultExcludePatterns) include_patterns).filterMap
              (readWarning fs src_dir)
        ++ summaryLines src_dir output_file
            (matchedFilesOf fs src_dir (normalizeExts (extensions.getD defaultExtensions))
              (exclude_patterns.getD defaultExcludePatterns) include_patterns)
            ((writeAll fs src_dir
              (headerStr src_dir (normalizeExts (extensions.getD defaultExtensions)))
              (matchedFilesOf fs src_dir (normalizeExts (extensions.getD defaultExtensions))
                (exclude_patterns.getD defaultExcludePatterns) include_patterns)).1).utf8ByteSize := by
  have hne : (matchedFilesOf fs src_dir (normalizeExts (extensions.getD defaultExtensions))
      (exclude_patterns.getD defaultExcludePatterns) include_patterns).isEmpty = false := by
    cases hm : matchedFilesOf fs src_dir (normalizeExts (extensions.getD defaultExtensions))
        (exclude_patterns.getD defaultExcludePatterns) include_patterns with
    | nil => exact absurd hm h
    | cons a l => rfl
  unfold merge_contracts
  simp only [hne, Bool.false_eq_true, if_false, writeAll_snd]
  exact ⟨trivial, trivial⟩

theorem merge_contracts_empty (fs : FSTree) (src_dir : List String) (output_file : String)
    (extensions exclude_patterns : Option (List String))
    (include_patterns : Option (List (List String)))
    (h : matchedFilesOf fs src_dir (normalizeExts (extensions.getD defaultExtensions))
      (exclude_patterns.getD defaultExcludePatterns) include_patterns = []) :
    (merge_contracts fs src_dir output_file extensions exclude_patterns include_patterns).written
      = none ∧
    (merge_contracts fs src_dir output_file extensions exclude_patterns include_patterns).printed
      = rootWarningsOf fs src_dir (normalizeExts (extensions.getD defaultExtensions))
          (exclude_patterns.getD defaultExcludePatterns) include_patterns
        ++ [noFilesLine (normalizeExts (extensions.getD defaultExtensions))] := by
  unfold merge_contracts
  simp only [h, List.isEmpty_nil, if_true]
  exact ⟨trivial, trivial⟩

/-! ## The rounding used by the megabyte figure -/

theorem mbHundredths_bounds (n : Nat) :
    262144 * mbHundredths n ≤ 25 * n + 131072 ∧
    25 * n ≤ 262144 * mbHundredths n + 131072 := by
  unfold mbHundredths
  have hdm := Nat.div_add_mod (25 * n) 262144
  have hr : 25 * n % 262144 < 262144 := Nat.mod_lt _ (by omega)
  split_ifs <;> omega

/-! ## The claims -/

/-- C1: every file merged into the output is present in the scanned tree as a
real file (reachable by path lookup), and its name ends in one of the
normalized (dot-prefixed) extensions; equivalently, no file whose name fails
to end in any normalized extension is ever collected.  The filesystem is
assumed well-formed (distinct entry names per directory, as on a real
filesystem). -/
theorem c1_extension_filter (fs : FSTree) (src_dir : List String) (exts0 excl : List String)
    (incl : Option (List (List String))) (p : List String)
    (hwf : wfTree fs = true)
    (hp : p ∈ matchedFilesOf fs src_dir (normalizeExts exts0) excl incl) :
    (∃ r, lookup fs p = some (FSTree.file r)) ∧
    (∃ fname, p.getLast? = some fname ∧ extMatches (normalizeExts exts0) fname = true) := by
  rw [mem_matchedFilesOf, mem_resolveRoots] at hp
  obtain ⟨root, hroot, cs, hcs, hw⟩ := hp
  obtain ⟨suffix, hne, hpe, ⟨r, hlk⟩, ⟨fname, hgl, hm⟩, hdl⟩ :=
    walkTree_sound (normalizeExts exts0) excl root (FSTree.dir cs)
      (wfTree_lookup root fs (FSTree.dir cs) hwf hcs) p hw
  constructor
  · refine ⟨r, ?_⟩
    rw [hpe, lookup_append, hcs]
    exact hlk
  · refine ⟨fname, ?_, hm⟩
    rw [hpe, List.getLast?_append, hgl]
    rfl

set_option maxRecDepth 10000 in
/-- Witness for C1: the tree `fsA`, default excludes, extensions `["sol"]`,
and the matched file `src/a.sol`. -/
theorem c1_extension_filter_witness :
    (∃ r, lookup fsA ["src", "a.sol"] = some (FSTree.file r)) ∧
    (∃ fname, (["src", "a.sol"] : List String).getLast? = some fname ∧
      extMatches (normalizeExts ["sol"]) fname = true) :=
  c1_extension_filter fsA ["src"] ["sol"] defaultExcludePatterns none ["src", "a.sol"]
    (by decide) (by decide)

set_option maxRecDepth 10000 in
/-- C2 counterexample: the claim fails as stated.  With exclusion pattern
`"skip"` and include root `"skip"`, the traversal root itself is never tested
against the exclusion patterns (only child directories encountered during the
walk are), so `src/skip/a.sol` is merged even though its path contains the
directory component `skip`, which glob-matches the exclusion pattern. -/
theorem c2_counterexample :
    ¬ (∀ p ∈ matchedFilesOf fsC2 ["src"] (normalizeExts ["sol"]) ["skip"] (some [["skip"]]),
        ∀ d ∈ p.dropLast, isExcluded ["skip"] d = false) := by decide

/-- C2 (amended): exclusion patterns prune directory components strictly
below a traversal root: every merged file decomposes as a root from
`searchPaths` followed by a non-empty suffix in which no component except the
filename glob-matches any exclusion pattern.  Components of the root itself
(in particular an include root whose own name matches a pattern) are not
filtered. -/
theorem c2_no_excluded_component_below_root (fs : FSTree) (src_dir : List String)
    (exts excl : List String) (incl : Option (List (List String))) (p : List String)
    (hwf : wfTree fs = true)
    (hp : p ∈ matchedFilesOf fs src_dir exts excl incl) :
    ∃ root, root ∈ searchPaths src_dir incl ∧ ∃ suffix, suffix ≠ [] ∧ p = root ++ suffix ∧
      ∀ d ∈ suffix.dropLast, isExcluded excl d = false := by
  rw [mem_matchedFilesOf, mem_resolveRoots] at hp
  obtain ⟨root, hroot, cs, hcs, hw⟩ := hp
  obtain ⟨suffix, hne, hpe, _, _, hdl⟩ :=
    walkTree_sound exts excl root (FSTree.dir cs)
      (wfTree_lookup root fs (FSTree.dir cs) hwf hcs) p hw
  exact ⟨root, hroot, suffix, hne, hpe, hdl⟩

set_option maxRecDepth 10000 in
/-- Witness for C2 (amended) at `fsA` and the file `src/sub/b.sol`. -/
theorem c2_no_excluded_component_below_root_witness :
    ∃ root, root ∈ searchPaths ["src"] none ∧ ∃ suffix, suffix ≠ [] ∧
      (["src", "sub", "b.sol"] : List String) = root ++ suffix ∧
      ∀ d ∈ suffix.dropLast, isExcluded defaultExcludePatterns d = false :=
  c2_no_excluded_component_below_root fsA ["src"] (normalizeExts ["sol"])
    defaultExcludePatterns none ["src", "sub", "b.sol"] (by decide) (by decide)

/-- C3: the sequence of merged files is duplicate-free (each physical file
appears exactly once, even with overlapping include roots), sorted by the
joined (absolute) path string, and contains exactly the paths discovered by
walking the traversal roots that exist, independently of enumeration order. -/
theorem c3_sorted_distinct (fs : FSTree) (src_dir : List String) (exts excl : List String)
    (incl : Option (List (List String))) :
    (matchedFilesOf fs src_dir exts excl incl).Nodup ∧
    List.Sorted pathLe (matchedFilesOf fs src_dir exts excl incl) ∧
    ∀ p, p ∈ matchedFilesOf fs src_dir exts excl incl ↔
      ∃ r ∈ searchPaths src_dir incl, ∃ cs, lookup fs r = some (FSTree.dir cs) ∧
        p ∈ walkTree exts excl r (FSTree.dir cs) := by
  refine ⟨?_, ?_, fun p => ?_⟩
  · exact (List.perm_insertionSort pathLe _).symm.nodup (List.nodup_dedup _)
  · exact List.sorted_insertionSort pathLe _
  · rw [mem_matchedFilesOf, mem_resolveRoots]

set_option maxRecDepth 10000 in
/-- C4 counterexample: the output does not consist of the header immediately
followed by banner blocks; the code writes one extra blank line before every
banner (including the first). -/
theorem c4_counterexample :
    (merge_contracts fsA ["src"] "merged.sol" (some ["sol"]) none none).written ≠ none ∧
    (merge_contracts fsA ["src"] "merged.sol" (some ["sol"]) none none).written ≠
      some (claimedOutput fsA ["src"] (normalizeExts ["sol"])
        (matchedFilesOf fsA ["src"] (normalizeExts ["sol"]) defaultExcludePatterns none)) := by
  decide

/-- C4 (amended): the output file is the two-line header followed, for each
successfully read file in order, by one blank line, the 3-line banner
(80 `=` separator wrapped in `//`, the `Source:` line, another separator), a
blank line, the file content verbatim, and one appended newline — and nothing
else. -/
theorem c4_output_format (fs : FSTree) (src_dir : List String) (output_file : String)
    (extensions exclude_patterns : Option (List String))
    (include_patterns : Option (List (List String))) (out : String)
    (h : (merge_contracts fs src_dir output_file extensions exclude_patterns
      include_patterns).written = some out) :
    out = actualOutput fs src_dir (normalizeExts (extensions.getD defaultExtensions))
      (matchedFilesOf fs src_dir (normalizeExts (extensions.getD defaultExtensions))
        (exclude_patterns.getD defaultExcludePatterns) include_patterns) := by
  by_cases hm : matchedFilesOf fs src_dir (normalizeExts (extensions.getD defaultExtensions))
      (exclude_patterns.getD defaultExcludePatterns) include_patterns = []
  · rw [(merge_contracts_empty fs src_dir output_file extensions exclude_patterns
      include_patterns hm).1] at h
    cases h
  · rw [(merge_contracts_success fs src_dir output_file extensions exclude_patterns
      include_patterns hm).1] at h
    injection h with h2
    rw [← h2, writeAll_fst, concat_chunks_eq]
    rfl

set_option maxRecDepth 10000 in
/-- Witness for C4 (amended) at `fsA`. -/
theorem c4_output_format_witness :
    ((merge_contracts fsA ["src"] "merged.sol" (some ["sol"]) none none).written =
      some (actualOutput fsA ["src"] (normalizeExts ["sol"])
        (matchedFilesOf fsA ["src"] (normalizeExts ["sol"]) defaultExcludePatterns none))) ∧
    (merge_contracts fsA ["src"] "merged.sol" (some ["sol"]) none none).written ≠ none := by
  constructor
  · cases hw : (merge_contracts fsA ["src"] "merged.sol" (some ["sol"]) none none).written with
    | none => exact absurd hw (by decide)
    | some out =>
      rw [c4_output_format fsA ["src"] "merged.sol" (some ["sol"]) none none out hw]
      rfl
  · decide

/-- C5 counterexample: the claim fails as stated.  When the source directory
does not exist the program exits non-zero and writes no output, but the error
message is printed with `print`, i.e. to standard output — standard error
stays empty. -/
theorem c5_counterexample :
    isDir fsEmptyRoot ["missing"] = false ∧
    (mainCli fsEmptyRoot ["missing"] "merged.sol" none none none).stderrLines = [] ∧
    (mainCli fsEmptyRoot ["missing"] "merged.sol" none none none).exitCode = 1 ∧
    (mainCli fsEmptyRoot ["missing"] "merged.sol" none none none).written = none := by decide

/-- C5 (amended): for every invocation whose source-directory argument does
not name an existing directory, the program prints the error message to
standard output (not standard error), exits with status 1, and creates no
output file. -/
theorem c5_missing_source_dir (fs : FSTree) (src_dir : List String) (output_file : String)
    (eA xA : Option (List String)) (iA : Option (List (List String)))
    (h : isDir fs src_dir = false) :
    (mainCli fs src_dir output_file eA xA iA).exitCode = 1 ∧
    (mainCli fs src_dir output_file eA xA iA).written = none ∧
    errorLine src_dir ∈ (mainCli fs src_dir output_file eA xA iA).stdoutLines ∧
    (mainCli fs src_dir output_file eA xA iA).stderrLines = [] := by
  unfold mainCli
  simp [h]

/-- Witness for C5 (amended) at `fsEmptyRoot`. -/
theorem c5_missing_source_dir_witness :
    (mainCli fsEmptyRoot ["missing"] "merged.sol" none none none).exitCode = 1 ∧
    (mainCli fsEmptyRoot ["missing"] "merged.sol" none none none).written = none ∧
    errorLine ["missing"] ∈ (mainCli fsEmptyRoot ["missing"] "merged.sol" none none none).stdoutLines ∧
    (mainCli fsEmptyRoot ["missing"] "merged.sol" none none none).stderrLines = [] :=
  c5_missing_source_dir fsEmptyRoot ["missing"] "merged.sol" none none none (by decide)

/-- C6: a matched file whose read fails produces a warning naming its
relative path and the failure cause, contributes nothing to the output (its
chunk is empty), and does not abort the merge: the output is still written
and consists of the header plus the blocks of all successfully read files. -/
theorem c6_read_failure_skips (fs : FSTree) (src_dir : List String) (output_file : String)
    (extensions exclude_patterns : Option (List String))
    (include_patterns : Option (List (List String))) (p : List String) (e : String)
    (hp : p ∈ matchedFilesOf fs src_dir (normalizeExts (extensions.getD defaultExtensions))
      (exclude_patterns.getD defaultExcludePatterns) include_patterns)
    (he : readFile fs p = .error e) :
    warnLine (relpathStr p src_dir) e ∈
      (merge_contracts fs src_dir output_file extensions exclude_patterns
        include_patterns).printed ∧
    fileChunk fs src_dir p = "" ∧
    (merge_contracts fs src_dir output_file extensions exclude_patterns
      include_patterns).written =
      some (actualOutput fs src_dir (normalizeExts (extensions.getD defaultExtensions))
        (matchedFilesOf fs src_dir (normalizeExts (extensions.getD defaultExtensions))
          (exclude_patterns.getD defaultExcludePatterns) include_patterns)) := by
  have hne : matchedFilesOf fs src_dir (normalizeExts (extensions.getD defaultExtensions))
      (exclude_patterns.getD defaultExcludePatterns) include_patterns ≠ [] := by
    intro hh
    rw [hh] at hp
    cases hp
  obtain ⟨hw, hpr⟩ := merge_contracts_success fs src_dir output_file extensions
    exclude_patterns include_patterns hne
  refine ⟨?_, fileChunk_error fs src_dir p e he, ?_⟩
  · rw [hpr]
    have hb : warnLine (relpathStr p src_dir) e ∈
        (matchedFilesOf fs src_dir (normalizeExts (extensions.getD defaultExtensions))
          (exclude_patterns.getD defaultExcludePatterns) include_patterns).filterMap
            (readWarning fs src_dir) :=
      List.mem_filterMap.mpr ⟨p, hp, by simp [readWarning, he]⟩
    exact List.mem_append_left _ (List.mem_append_right _ hb)
  · rw [hw, writeAll_fst, concat_chunks_eq]
    rfl

set_option maxRecDepth 10000 in
/-- Witness for C6 at `fsB`, whose file `src/bad.sol` is unreadable. -/
theorem c6_read_failure_skips_witness :
    warnLine (relpathStr ["src", "bad.sol"] ["src"]) "Permission denied" ∈
      (merge_contracts fsB ["src"] "merged.sol" (some ["sol"]) none none).printed ∧
    fileChunk fsB ["src"] ["src", "bad.sol"] = "" ∧
    (merge_contracts fsB ["src"] "merged.sol" (some ["sol"]) none none).written =
      some (actualOutput fsB ["src"] (normalizeExts ((some ["sol"]).getD defaultExtensions))
        (matchedFilesOf fsB ["src"] (normalizeExts ((some ["sol"]).getD defaultExtensions))
          ((none : Option (List String)).getD defaultExcludePatterns) none)) :=
  c6_read_failure_skips fsB ["src"] "merged.sol" (some ["sol"]) none none
    ["src", "bad.sol"] "Permission denied" (by decide) (by rfl)

/-- C7: when zero files match across all traversal roots, the program prints
the informational "no files" message, writes no output file, and exits with
status zero. -/
theorem c7_no_match_noop (fs : FSTree) (src_dir : List String) (output_file : String)
    (eA xA : Option (List String)) (iA : Option (List (List String)))
    (hdir : isDir fs src_dir = true)
    (hempty : matchedFilesOf fs src_dir (normalizeExts (cliExtensions eA))
      (cliExcludes xA) iA = []) :
    (mainCli fs src_dir output_file eA xA iA).exitCode = 0 ∧
    (mainCli fs src_dir output_file eA xA iA).written = none ∧
    noFilesLine (normalizeExts (cliExtensions eA)) ∈
      (mainCli fs src_dir output_file eA xA iA).stdoutLines := by
  unfold mainCli
  simp only [hdir, if_true]
  obtain ⟨hw, hpr⟩ := merge_contracts_empty fs src_dir output_file
    (some (cliExtensions eA)) (some (cliExcludes xA)) iA hempty
  refine ⟨trivial, hw, ?_⟩
  rw [hpr]
  exact List.mem_append_right _ (List.mem_singleton.mpr rfl)

/-- Witness for C7 at `fsE` (an existing but fileless source directory). -/
theorem c7_no_match_noop_witness :
    (mainCli fsE ["src"] "merged.sol" none none none).exitCode = 0 ∧
    (mainCli fsE ["src"] "merged.sol" none none none).written = none ∧
    noFilesLine (normalizeExts (cliExtensions none)) ∈
      (mainCli fsE ["src"] "merged.sol" none none none).stdoutLines :=
  c7_no_match_noop fsE ["src"] "merged.sol" none none none (by decide) (by decide)

set_option maxRecDepth 10000 in
/-- C8 counterexample: the claim fails as stated.  At `fsB` two files match
but only one is successfully merged (the other read fails); the success line
still reports the matched count 2, not the merged count 1. -/
theorem c8_counterexample :
    mergedOkCount fsB
      (matchedFilesOf fsB ["src"] (normalizeExts ["sol"]) defaultExcludePatterns none) = 1 ∧
    (matchedFilesOf fsB ["src"] (normalizeExts ["sol"]) defaultExcludePatterns none).length
      = 2 ∧
    successLine 2 "merged.sol" ∈
      (merge_contracts fsB ["src"] "merged.sol" (some ["sol"]) none none).printed ∧
    successLine 1 "merged.sol" ∉
      (merge_contracts fsB ["src"] "merged.sol" (some ["sol"]) none none).printed := by decide

/-- C8 (amended): after writing, the reporter prints the success line with
the count of MATCHED files (including any skipped for read failures) and the
output path, the size line, a "Merged files:" header, the first (at most) 10
matched files as paths relative to the source directory, and — exactly when
more than 10 matched — a final line with the number of omitted entries. -/
theorem c8_summary_lists_first_ten (fs : FSTree) (src_dir : List String)
    (output_file : String) (extensions exclude_patterns : Option (List String))
    (include_patterns : Option (List (List String)))
    (h : matchedFilesOf fs src_dir (normalizeExts (extensions.getD defaultExtensions))
      (exclude_patterns.getD defaultExcludePatterns) include_patterns ≠ []) :
    ∃ out, (merge_contracts fs src_dir output_file extensions exclude_patterns
        include_patterns).written = some out ∧
      (merge_contracts fs src_dir output_file extensions exclude_patterns
        include_patterns).printed =
        rootWarningsOf fs src_dir (normalizeExts (extensions.getD defaultExtensions))
            (exclude_patterns.getD defaultExcludePatterns) include_patterns
          ++ (matchedFilesOf fs src_dir (normalizeExts (extensions.getD defaultExtensions))
              (exclude_patterns.getD defaultExcludePatterns) include_patterns).filterMap
                (readWarning fs src_dir)
          ++ [successLine (matchedFilesOf fs src_dir
                (normalizeExts (extensions.getD defaultExtensions))
                (exclude_patterns.getD defaultExcludePatterns) include_patterns).length
                output_file,
              sizeLine out.utf8ByteSize, "\nMerged files:"]
          ++ ((matchedFilesOf fs src_dir (normalizeExts (extensions.getD defaultExtensions))
              (exclude_patterns.getD defaultExcludePatterns) include_patterns).take 10).map
                (itemLine src_dir)
          ++ (if (matchedFilesOf fs src_dir (normalizeExts (extensions.getD defaultExtensions))
                (exclude_patterns.getD defaultExcludePatterns) include_patterns).length > 10
              then [moreLine ((matchedFilesOf fs src_dir
                (normalizeExts (extensions.getD defaultExtensions))
                (exclude_patterns.getD defaultExcludePatterns) include_patterns).length - 10)]
              else []) := by
  obtain ⟨hw, hpr⟩ := merge_contracts_success fs src_dir output_file extensions
    exclude_patterns include_patterns h
  refine ⟨_, hw, ?_⟩
  rw [hpr]
  simp [summaryLines, List.append_assoc]

set_option maxRecDepth 10000 in
/-- Witness for C8 (amended) at `fsA`. -/
theorem c8_summary_lists_first_ten_witness :
    ∃ out, (merge_contracts fsA ["src"] "merged.sol" (some ["sol"]) none none).written
        = some out ∧
      (merge_contracts fsA ["src"] "merged.sol" (some ["sol"]) none none).printed =
        rootWarningsOf fsA ["src"] (normalizeExts ((some ["sol"]).getD defaultExtensions))
            ((none : Option (List String)).getD defaultExcludePatterns) none
          ++ (matchedFilesOf fsA ["src"]
              (normalizeExts ((some ["sol"]).getD defaultExtensions))
              ((none : Option (List String)).getD defaultExcludePatterns) none).filterMap
                (readWarning fsA ["src"])
          ++ [successLine (matchedFilesOf fsA ["src"]
                (normalizeExts ((some ["sol"]).getD defaultExtensions))
                ((none : Option (List String)).getD defaultExcludePatterns) none).length
                "merged.sol",
              sizeLine out.utf8ByteSize, "\nMerged files:"]
          ++ ((matchedFilesOf fsA ["src"]
              (normalizeExts ((some ["sol"]).getD defaultExtensions))
              ((none : Option (List String)).getD defaultExcludePatterns) none).take 10).map
                (itemLine ["src"])
          ++ (if (matchedFilesOf fsA ["src"]
                (normalizeExts ((some ["sol"]).getD defaultExtensions))
                ((none : Option (List String)).getD defaultExcludePatterns) none).length > 10
              then [moreLine ((matchedFilesOf fsA ["src"]
                (normalizeExts ((some ["sol"]).getD defaultExtensions))
                ((none : Option (List String)).getD defaultExcludePatterns) none).length - 10)]
              else []) :=
  c8_summary_lists_first_ten fsA ["src"] "merged.sol" (some ["sol"]) none none (by decide)

/-- C9: the reported byte count is the size of the written output file (in
the model, the UTF-8 byte size of the content, exactly what
`os.path.getsize` returns after the file is closed), and the printed
megabyte figure is that byte count divided by 1,048,576 rounded to two
decimal places: `mbHundredths` differs from the exact value
`100·size/1048576 = 25·size/262144` by at most one half. -/
theorem c9_size_report (fs : FSTree) (src_dir : List String) (output_file : String)
    (extensions exclude_patterns : Option (List String))
    (include_patterns : Option (List (List String)))
    (h : matchedFilesOf fs src_dir (normalizeExts (extensions.getD defaultExtensions))
      (exclude_patterns.getD defaultExcludePatterns) include_patterns ≠ []) :
    ∃ out, (merge_contracts fs src_dir output_file extensions exclude_patterns
        include_patterns).written = some out ∧
      sizeLine out.utf8ByteSize ∈
        (merge_contracts fs src_dir output_file extensions exclude_patterns
          include_patterns).printed ∧
      262144 * mbHundredths out.utf8ByteSize ≤ 25 * out.utf8ByteSize + 131072 ∧
      25 * out.utf8ByteSize ≤ 262144 * mbHundredths out.utf8ByteSize + 131072 := by
  obtain ⟨hw, hpr⟩ := merge_contracts_success fs src_dir output_file extensions
    exclude_patterns include_patterns h
  refine ⟨_, hw, ?_, (mbHundredths_bounds _).1, (mbHundredths_bounds _).2⟩
  rw [hpr]
  exact List.mem_append_right _ (by simp [summaryLines])

set_option maxRecDepth 10000 in
/-- Witness for C9 at `fsA`. -/
theorem c9_size_report_witness :
    ∃ out, (merge_contracts fsA ["src"] "merged.sol" (some ["sol"]) none none).written
        = some out ∧
      sizeLine out.utf8ByteSize ∈
        (merge_contracts fsA ["src"] "merged.sol" (some ["sol"]) none none).printed ∧
      262144 * mbHundredths out.utf8ByteSize ≤ 25 * out.utf8ByteSize + 131072 ∧
      25 * out.utf8ByteSize ≤ 262144 * mbHundredths out.utf8ByteSize + 131072 :=
  c9_size_report fsA ["src"] "merged.sol" (some ["sol"]) none none (by decide)

/-- C10: per-file atomicity of the write loop.  The output is exactly the
header followed by each matched file's chunk in order, and a chunk is
all-or-nothing: the full banner-plus-content block when the read succeeds,
the empty string when it fails — so a failed read contributes zero bytes and
later files are still written. -/
theorem c10_per_file_atomicity (fs : FSTree) (src_dir : List String) (hdr : String)
    (matched : List (List String)) :
    (writeAll fs src_dir hdr matched).1
      = hdr ++ concatStrs (matched.map (fileChunk fs src_dir)) ∧
    ∀ p ∈ matched,
      (∀ c, readFile fs p = .ok c →
        fileChunk fs src_dir p = actualBlock (relpathStr p src_dir) c) ∧
      (∀ e, readFile fs p = .error e → fileChunk fs src_dir p = "") :=
  ⟨writeAll_fst fs src_dir hdr matched,
   fun p _ => ⟨fun c hc => fileChunk_ok fs src_dir p c hc,
               fun e hee => fileChunk_error fs src_dir p e hee⟩⟩

/-- Witness for C10 at `fsB` (one readable, one unreadable file). -/
theorem c10_per_file_atomicity_witness :
    (writeAll fsB ["src"] (headerStr ["src"] [".sol"])
        [["src", "a.sol"], ["src", "bad.sol"]]).1
      = headerStr ["src"] [".sol"]
        ++ concatStrs ([["src", "a.sol"], ["src", "bad.sol"]].map (fileChunk fsB ["src"])) ∧
    ∀ p ∈ [["src", "a.sol"], ["src", "bad.sol"]],
      (∀ c, readFile fsB p = .ok c →
        fileChunk fsB ["src"] p = actualBlock (relpathStr p ["src"]) c) ∧
      (∀ e, readFile fsB p = .error e → fileChunk fsB ["src"] p = "") :=
  c10_per_file_atomicity fsB ["src"] (headerStr ["src"] [".sol"])
    [["src", "a.sol"], ["src", "bad.sol"]]
